import Mathlib

/-!
Verification of the N-body simulation (`src/main.cpp`) against its
natural-language specification.

The physics step (pairwise gravitational force accumulation, recentering) is
embedded over the real numbers `ℝ`, idealising IEEE doubles as exact real
arithmetic; `sqrt` is `Real.sqrt`.  The renderer (`create_map_of_bodies`) uses
only field operations, comparisons and rounding, so it is embedded over `ℚ`,
the exact arithmetic carried out by the source on rational (double) inputs;
this keeps it fully executable.  C++ `round` (round half away from zero) is
modelled by `roundAway`.  The constants `std::numeric_limits<double>::min()`
and `::max()` used to seed the bounding-box scan are the exact rationals
`dblMin = 2^(-1022)` (smallest positive normal double) and
`dblMax = (2^53 - 1) * 2^971`.
-/

namespace NBodySim

/-- A point mass: position, velocity, mass — `struct Body` of the source,
parameterised by the number type (`ℝ` for the physics idealisation, `ℚ` for
the executable renderer model). -/
structure Body (α : Type) where
  x : α
  y : α
  z : α
  vx : α
  vy : α
  vz : α
  mass : α
deriving Repr, DecidableEq

/-! ## Physics: `magnitude`, `distance`, Newton formula, pairwise pass -/

/-- Source `magnitude(x, y, z) = sqrt(x*x + y*y + z*z)`. -/
noncomputable def magnitude (x y z : ℝ) : ℝ :=
  Real.sqrt (x * x + y * y + z * z)

/-- Source `distance`: magnitude of the componentwise difference. -/
noncomputable def distance (x1 y1 z1 x2 y2 z2 : ℝ) : ℝ :=
  magnitude (x1 - x2) (y1 - y2) (z1 - z2)

/-- Source `newton_law_of_universal_gravitation`:
`G * ((m1 * m2) / d)` — linear in the distance, exactly as written. -/
noncomputable def newton_law_of_universal_gravitation (G m1 m2 d : ℝ) : ℝ :=
  G * ((m1 * m2) / d)

/-- One iteration of the inner pair loop of `main` (lines 215–262): positions
and the masses entering the force formula are read from the snapshot `old`
(`bodies_old`), the velocity increments divide by the live masses in `cur`
(`bodies`), body `i` is updated first and body `j` second, with the force on
`j` the exact negation of the force on `i`. -/
noncomputable def pairUpdate {n : ℕ} (G : ℝ) (old cur : Fin n → Body ℝ)
    (i j : Fin n) : Fin n → Body ℝ :=
  let d := distance (old i).x (old i).y (old i).z (old j).x (old j).y (old j).z
  let force := newton_law_of_universal_gravitation G (old i).mass (old j).mass d
  let x1 := (old j).x - (old i).x
  let y1 := (old j).y - (old i).y
  let z1 := (old j).z - (old i).z
  let magnitude1 := magnitude x1 y1 z1
  let x1_force := x1 / magnitude1 * force
  let y1_force := y1 / magnitude1 * force
  let z1_force := z1 / magnitude1 * force
  let cur1 := Function.update cur i
    { cur i with
      vx := (cur i).vx + x1_force / (cur i).mass
      vy := (cur i).vy + y1_force / (cur i).mass
      vz := (cur i).vz + z1_force / (cur i).mass }
  Function.update cur1 j
    { cur1 j with
      vx := (cur1 j).vx + -x1_force / (cur1 j).mass
      vy := (cur1 j).vy + -y1_force / (cur1 j).mass
      vz := (cur1 j).vz + -z1_force / (cur1 j).mass }

/-- The pair indices visited by the double loop
`for i1 in [0, n-1), for i2 in [i1+1, n)`, in loop order. -/
def allPairs (n : ℕ) : List (Fin n × Fin n) :=
  (List.finRange n).flatMap fun i =>
    ((List.finRange n).filter fun j => i < j).map fun j => (i, j)

/-- One full force-accumulation pass: snapshot the collection
(`bodies_old = bodies`), then fold `pairUpdate` over every unordered pair. -/
noncomputable def forcePass {n : ℕ} (G : ℝ) (b : Fin n → Body ℝ) :
    Fin n → Body ℝ :=
  (allPairs n).foldl (fun cur p => pairUpdate G b cur p.1 p.2) b

/-- Total momentum, x component: sum over bodies of `mass * vx`. -/
noncomputable def totalMomentumX {n : ℕ} (b : Fin n → Body ℝ) : ℝ :=
  ∑ i, (b i).mass * (b i).vx

/-- Total momentum, y component. -/
noncomputable def totalMomentumY {n : ℕ} (b : Fin n → Body ℝ) : ℝ :=
  ∑ i, (b i).mass * (b i).vy

/-- Total momentum, z component. -/
noncomputable def totalMomentumZ {n : ℕ} (b : Fin n → Body ℝ) : ℝ :=
  ∑ i, (b i).mass * (b i).vz

/-- The recenter block of `main` (lines 268–292): sum all positions, divide
by the body count, subtract the resulting centroid from every body. -/
noncomputable def recenter {n : ℕ} (b : Fin n → Body ℝ) : Fin n → Body ℝ :=
  let cx := (∑ k, (b k).x) / n
  let cy := (∑ k, (b k).y) / n
  let cz := (∑ k, (b k).z) / n
  fun i => { b i with
    x := (b i).x - cx
    y := (b i).y - cy
    z := (b i).z - cz }

/-! ## Body initialisation (`main`, lines 149–162)

`rand()` is modelled as a stream `seq : ℕ → ℕ` of values in `[0, RAND_MAX]`;
each body consumes seven consecutive draws, in the evaluation order of the
source: x, y, z, vx, vy, vz, mass. -/

/-- Source lambda `rand01double`: `(double)rand() / RAND_MAX`. -/
def rand01double (RM r : ℕ) : ℚ := (r : ℚ) / (RM : ℚ)

/-- Source lambda `randn1to1double`: `rand01double() * 2 - 1`. -/
def randn1to1double (RM r : ℕ) : ℚ := rand01double RM r * 2 - 1

/-- Source lambda `randndouble`: `randn1to1double() * number_of_bodies`. -/
def randndouble (n RM r : ℕ) : ℚ := randn1to1double RM r * (n : ℚ)

/-- The body built by the k-th iteration of the init loop. -/
def initBody (n RM : ℕ) (seq : ℕ → ℕ) (k : ℕ) : Body ℚ :=
  { x := randndouble n RM (seq (7 * k))
    y := randndouble n RM (seq (7 * k + 1))
    z := randndouble n RM (seq (7 * k + 2))
    vx := rand01double RM (seq (7 * k + 3))
    vy := rand01double RM (seq (7 * k + 4))
    vz := rand01double RM (seq (7 * k + 5))
    mass := rand01double RM (seq (7 * k + 6)) }

/-- The init loop: n bodies drawn from the random stream. -/
def initBodies (n RM : ℕ) (seq : ℕ → ℕ) : List (Body ℚ) :=
  (List.range n).map (initBody n RM seq)

/-! ## Renderer (`create_map_of_bodies`, lines 87–137), over `ℚ` -/

/-- The exact value of `std::numeric_limits<double>::min()`, the initial
value of `highest_x/highest_y/highest_z` (smallest positive normal double). -/
def dblMin : ℚ := 1 / 2 ^ 1022

/-- The exact value of `std::numeric_limits<double>::max()`, the initial
value of `lowest_x/lowest_y/lowest_z`. -/
def dblMax : ℚ := (2 ^ 53 - 1) * 2 ^ 971

/-- The six bound accumulators of the renderer's first loop. -/
structure Bounds where
  highest_x : ℚ
  highest_y : ℚ
  highest_z : ℚ
  lowest_x : ℚ
  lowest_y : ℚ
  lowest_z : ℚ
deriving Repr, DecidableEq

/-- One `highest_*` accumulator: `if (body.f > highest) highest = body.f`. -/
def foldHigh (f : Body ℚ → ℚ) (bodies : List (Body ℚ)) : ℚ :=
  bodies.foldl (fun acc b => if acc < f b then f b else acc) dblMin

/-- One `lowest_*` accumulator: `if (body.f < lowest) lowest = body.f`. -/
def foldLow (f : Body ℚ → ℚ) (bodies : List (Body ℚ)) : ℚ :=
  bodies.foldl (fun acc b => if f b < acc then f b else acc) dblMax

/-- The renderer's first step: one scan of the collection maintaining the six
independent accumulators (lines 90–108 of the source). -/
def computeBounds (bodies : List (Body ℚ)) : Bounds :=
  { highest_x := foldHigh (fun b => b.x) bodies
    highest_y := foldHigh (fun b => b.y) bodies
    highest_z := foldHigh (fun b => b.z) bodies
    lowest_x := foldLow (fun b => b.x) bodies
    lowest_y := foldLow (fun b => b.y) bodies
    lowest_z := foldLow (fun b => b.z) bodies }

/-- The depth palette `z_characters`, 16 characters from sparse to dense
(the second character is the apostrophe, code point 39). -/
def z_characters : List Char :=
  ['.', Char.ofNat 39, ':', '-', '_', '^', '+', '=',
   '~', '*', 'o', 'O', '#', '%', '&', '@']

/-- `z_size`, the palette length (16). -/
def z_size : ℕ := z_characters.length

/-- C++ `round`: round half away from zero, as an integer. -/
def roundAway (q : ℚ) : ℤ :=
  if q < 0 then -⌊-q + 1 / 2⌋ else ⌊q + 1 / 2⌋

/-- Column index of a body:
`round((body.x - lowest_x) / (highest_x - lowest_x) * (width - 1))`. -/
def colIndex (bd : Bounds) (width : ℕ) (b : Body ℚ) : ℤ :=
  roundAway ((b.x - bd.lowest_x) / (bd.highest_x - bd.lowest_x) * ((width : ℚ) - 1))

/-- Row index of a body:
`round((body.y - lowest_y) / (highest_y - lowest_y) * (height - 1))`. -/
def rowIndex (bd : Bounds) (height : ℕ) (b : Body ℚ) : ℤ :=
  roundAway ((b.y - bd.lowest_y) / (bd.highest_y - bd.lowest_y) * ((height : ℚ) - 1))

/-- Depth-palette index of a body:
`round((body.z - lowest_z) / (highest_z - lowest_z) * (z_size - 1))`. -/
def zIndex (bd : Bounds) (b : Body ℚ) : ℤ :=
  roundAway ((b.z - bd.lowest_z) / (bd.highest_z - bd.lowest_z) * ((z_size : ℚ) - 1))

/-- The depth character written for a body: `z_characters[zIndex]`. -/
def depthChar (bd : Bounds) (b : Body ℚ) : Char :=
  z_characters.getD (zIndex bd b).toNat ' '

/-- The initial grid: `height` rows of `width` spaces. -/
def initialGrid (height width : ℕ) : List (List Char) :=
  List.replicate height (List.replicate width ' ')

/-- `lines[y][x] = c` (in-bounds writes match the source; an out-of-bounds
write, undefined behaviour in C++, is a no-op here). -/
def setCell (g : List (List Char)) (y x : ℕ) (c : Char) : List (List Char) :=
  g.set y ((g.getD y []).set x c)

/-- The body-plotting step of the renderer's second loop. -/
def plotBody (bd : Bounds) (height width : ℕ) (g : List (List Char))
    (b : Body ℚ) : List (List Char) :=
  setCell g (rowIndex bd height b).toNat (colIndex bd width b).toNat
    (depthChar bd b)

/-- The grid after plotting every body in collection order. -/
def renderGrid (height width : ℕ) (bodies : List (Body ℚ)) : List (List Char) :=
  bodies.foldl (plotBody (computeBounds bodies) height width)
    (initialGrid height width)

/-- `create_map_of_bodies`: the grid rows concatenated, each followed by a
newline. -/
def create_map_of_bodies (height width : ℕ) (bodies : List (Body ℚ)) : String :=
  (renderGrid height width bodies).foldl
    (fun out line => out ++ String.mk line ++ "\n") ""

/-- The character at grid cell (r, c). -/
def cellAt (g : List (List Char)) (r c : ℕ) : Char :=
  (g.getD r []).getD c ' '

/-! ## Concrete sample inputs used by witnesses and counterexamples -/

/-- A unit-mass body at the origin. -/
def probeBody : Body ℚ :=
  { x := 0, y := 0, z := 0, vx := 0, vy := 0, vz := 0, mass := 1 }

/-- A body with every coordinate negative. -/
def negBody : Body ℚ :=
  { x := -1, y := -1, z := -1, vx := 0, vy := 0, vz := 0, mass := 1 }

/-- Two unit-mass bodies at rest, one at the origin and one at (1, 0, 0). -/
noncomputable def twoBodiesX : Fin 2 → Body ℝ := fun i =>
  if i = 0 then { x := 0, y := 0, z := 0, vx := 0, vy := 0, vz := 0, mass := 1 }
  else { x := 1, y := 0, z := 0, vx := 0, vy := 0, vz := 0, mass := 1 }

/-- Two unit-mass bodies at rest at distance 10 on the x-axis. -/
noncomputable def twoBodiesTen : Fin 2 → Body ℝ := fun i =>
  if i = 0 then { x := 0, y := 0, z := 0, vx := 0, vy := 0, vz := 0, mass := 1 }
  else { x := 10, y := 0, z := 0, vx := 0, vy := 0, vz := 0, mass := 1 }

/-- Two unit-mass bodies occupying the same position (the origin). -/
noncomputable def coincidentPair : Fin 2 → Body ℝ := fun _ =>
  { x := 0, y := 0, z := 0, vx := 0, vy := 0, vz := 0, mass := 1 }

/-- Three bodies whose first and third map to the same grid cell for a
5-by-5 grid. -/
def threeQ : List (Body ℚ) :=
  [ { x := 0, y := 0, z := 0, vx := 0, vy := 0, vz := 0, mass := 1 },
    { x := 4, y := 4, z := 4, vx := 0, vy := 0, vz := 0, mass := 1 },
    { x := 0, y := 0, z := 4, vx := 0, vy := 0, vz := 0, mass := 1 } ]

/-- Two bodies spanning the unit cube. -/
def twoQ : List (Body ℚ) :=
  [ { x := 0, y := 0, z := 0, vx := 0, vy := 0, vz := 0, mass := 1 },
    { x := 1, y := 1, z := 1, vx := 0, vy := 0, vz := 0, mass := 1 } ]

/-! ## Theorems -/

/-- C9: the renderer is a pure function of its arguments: two calls with the
same height, width and body collection return the same text. -/
theorem render_deterministic (h1 w1 h2 w2 : ℕ) (b1 b2 : List (Body ℚ))
    (hh : h1 = h2) (hw : w1 = w2) (hb : b1 = b2) :
    create_map_of_bodies h1 w1 b1 = create_map_of_bodies h2 w2 b2 := by
  subst hh; subst hw; subst hb; rfl

/-- Witness for C9 at a concrete collection and concrete dimensions. -/
theorem render_deterministic_witness :
    create_map_of_bodies 2 3 [probeBody] = create_map_of_bodies 2 3 [probeBody] :=
  render_deterministic 2 3 2 3 [probeBody] [probeBody] rfl rfl rfl

/-- C2 (code bug): for the single body at (-1, -1, -1) — all coordinates
negative — the renderer's bound scan leaves `highest_x` at its seed
`std::numeric_limits<double>::min()` = 2^(-1022), a small positive number,
instead of the true maximum -1: the seed should have been the lowest finite
double.  The same holds for `highest_y` and `highest_z`. -/
theorem highest_wrong_for_all_negative :
    (computeBounds [negBody]).highest_x = dblMin ∧
    (computeBounds [negBody]).highest_y = dblMin ∧
    (computeBounds [negBody]).highest_z = dblMin ∧
    dblMin ≠ negBody.x ∧ 0 < dblMin ∧ negBody.x < 0 := by
  norm_num [computeBounds, foldHigh, negBody, dblMin]

/-- C3 (counterexample): with the random source returning 0 (a value every
conforming `rand()` can produce), the generated mass is exactly 0, refuting
the claim that masses lie in the half-open interval (0, 1]. -/
theorem initBodies_mass_zero :
    ((initBodies 1 2147483647 (fun _ => 0)).getD 0 probeBody).mass = 0 ∧
    ¬(0 < ((initBodies 1 2147483647 (fun _ => 0)).getD 0 probeBody).mass) := by
  norm_num [initBodies, initBody, rand01double]

/-- C3 (amended): for every n and every random stream bounded by RAND_MAX,
every generated body has position components in [-n, n], velocity components
in [0, 1], and mass in the closed interval [0, 1] (mass 0 is reachable). -/
theorem initBodies_bounds (n RM : ℕ) (seq : ℕ → ℕ)
    (hRM : 0 < RM) (hseq : ∀ k, seq k ≤ RM)
    (b : Body ℚ) (hb : b ∈ initBodies n RM seq) :
    (-(n : ℚ) ≤ b.x ∧ b.x ≤ n) ∧ (-(n : ℚ) ≤ b.y ∧ b.y ≤ n) ∧
    (-(n : ℚ) ≤ b.z ∧ b.z ≤ n) ∧
    (0 ≤ b.vx ∧ b.vx ≤ 1) ∧ (0 ≤ b.vy ∧ b.vy ≤ 1) ∧ (0 ≤ b.vz ∧ b.vz ≤ 1) ∧
    (0 ≤ b.mass ∧ b.mass ≤ 1) := by
  obtain ⟨k, _, rfl⟩ := List.mem_map.1 hb
  have h01 : ∀ r : ℕ, r ≤ RM → 0 ≤ rand01double RM r ∧ rand01double RM r ≤ 1 := by
    intro r hr
    have hRMQ : (0 : ℚ) < RM := by exact_mod_cast hRM
    unfold rand01double
    constructor
    · exact div_nonneg (by positivity) hRMQ.le
    · rw [div_le_one hRMQ]; exact_mod_cast hr
  have hn : ∀ r : ℕ, r ≤ RM →
      -(n : ℚ) ≤ randndouble n RM r ∧ randndouble n RM r ≤ n := by
    intro r hr
    obtain ⟨h0, h1⟩ := h01 r hr
    have hnQ : (0 : ℚ) ≤ n := by positivity
    unfold randndouble randn1to1double
    constructor <;> nlinarith
  exact ⟨hn _ (hseq _), hn _ (hseq _), hn _ (hseq _),
    h01 _ (hseq _), h01 _ (hseq _), h01 _ (hseq _), h01 _ (hseq _)⟩

/-- Witness for C3's amended bounds at n = 1, RAND_MAX = 1, stream ≡ 1. -/
theorem initBodies_bounds_witness :
    (-(1 : ℚ) ≤ (initBody 1 1 (fun _ => 1) 0).x ∧ (initBody 1 1 (fun _ => 1) 0).x ≤ 1) ∧
    (-(1 : ℚ) ≤ (initBody 1 1 (fun _ => 1) 0).y ∧ (initBody 1 1 (fun _ => 1) 0).y ≤ 1) ∧
    (-(1 : ℚ) ≤ (initBody 1 1 (fun _ => 1) 0).z ∧ (initBody 1 1 (fun _ => 1) 0).z ≤ 1) ∧
    (0 ≤ (initBody 1 1 (fun _ => 1) 0).vx ∧ (initBody 1 1 (fun _ => 1) 0).vx ≤ 1) ∧
    (0 ≤ (initBody 1 1 (fun _ => 1) 0).vy ∧ (initBody 1 1 (fun _ => 1) 0).vy ≤ 1) ∧
    (0 ≤ (initBody 1 1 (fun _ => 1) 0).vz ∧ (initBody 1 1 (fun _ => 1) 0).vz ≤ 1) ∧
    (0 ≤ (initBody 1 1 (fun _ => 1) 0).mass ∧ (initBody 1 1 (fun _ => 1) 0).mass ≤ 1) := by
  have h := initBodies_bounds 1 1 (fun _ => 1) (by norm_num) (fun k => le_refl 1)
    (initBody 1 1 (fun _ => 1) 0) (by simp [initBodies])
  simpa using h

/-- C8: with two bodies at the same reference position, the distance computed
by the force step is 0 and so is the direction-vector magnitude: both the
force division `(m1 * m2) / d` and the normalization divisions `x1 / magnitude1`
(etc.) are divisions by zero, and nothing in the pass guards against it. -/
theorem zero_distance_reachable :
    distance (coincidentPair 0).x (coincidentPair 0).y (coincidentPair 0).z
      (coincidentPair 1).x (coincidentPair 1).y (coincidentPair 1).z = 0 ∧
    magnitude ((coincidentPair 1).x - (coincidentPair 0).x)
      ((coincidentPair 1).y - (coincidentPair 0).y)
      ((coincidentPair 1).z - (coincidentPair 0).z) = 0 := by
  simp [coincidentPair, distance, magnitude]

/-- C4: after the recenter step the arithmetic mean of the positions is the
origin exactly, and every inter-body difference vector is unchanged. -/
theorem recenter_centroid_origin {n : ℕ} (b : Fin n → Body ℝ) (hn : 0 < n)
    (i j : Fin n) :
    (∑ k, (recenter b k).x) / n = 0 ∧
    (∑ k, (recenter b k).y) / n = 0 ∧
    (∑ k, (recenter b k).z) / n = 0 ∧
    (recenter b i).x - (recenter b j).x = (b i).x - (b j).x ∧
    (recenter b i).y - (recenter b j).y = (b i).y - (b j).y ∧
    (recenter b i).z - (recenter b j).z = (b i).z - (b j).z := by
  have hnR : ((n : ℝ)) ≠ 0 := Nat.cast_ne_zero.2 hn.ne'
  have hsum : ∀ f : Fin n → ℝ,
      (∑ k : Fin n, (f k - (∑ m, f m) / n)) = 0 := by
    intro f
    rw [Finset.sum_sub_distrib, Finset.sum_const, Finset.card_univ,
      Fintype.card_fin, nsmul_eq_mul]
    field_simp
  refine ⟨?_, ?_, ?_, ?_, ?_, ?_⟩
  · rw [show (∑ k, (recenter b k).x) = ∑ k, ((b k).x - (∑ m, (b m).x) / n) from rfl,
      hsum, zero_div]
  · rw [show (∑ k, (recenter b k).y) = ∑ k, ((b k).y - (∑ m, (b m).y) / n) from rfl,
      hsum, zero_div]
  · rw [show (∑ k, (recenter b k).z) = ∑ k, ((b k).z - (∑ m, (b m).z) / n) from rfl,
      hsum, zero_div]
  all_goals (simp [recenter]; try ring)

/-- Witness for C4 at the concrete two-body collection `twoBodiesX`. -/
theorem recenter_centroid_origin_witness :
    0 < 2 ∧
    ((∑ k, (recenter twoBodiesX k).x) / ((2 : ℕ) : ℝ) = 0 ∧
     (∑ k, (recenter twoBodiesX k).y) / ((2 : ℕ) : ℝ) = 0 ∧
     (∑ k, (recenter twoBodiesX k).z) / ((2 : ℕ) : ℝ) = 0 ∧
     (recenter twoBodiesX 0).x - (recenter twoBodiesX 1).x
       = (twoBodiesX 0).x - (twoBodiesX 1).x ∧
     (recenter twoBodiesX 0).y - (recenter twoBodiesX 1).y
       = (twoBodiesX 0).y - (twoBodiesX 1).y ∧
     (recenter twoBodiesX 0).z - (recenter twoBodiesX 1).z
       = (twoBodiesX 0).z - (twoBodiesX 1).z) :=
  ⟨by norm_num, recenter_centroid_origin twoBodiesX (by norm_num) 0 1⟩

/-- Helper: the body at index i after one pair update, written without lets. -/
theorem pairUpdate_apply_fst {n : ℕ} (G : ℝ) (old cur : Fin n → Body ℝ)
    (i j : Fin n) (hij : i ≠ j) :
    pairUpdate G old cur i j i =
      { x := (cur i).x
        y := (cur i).y
        z := (cur i).z
        mass := (cur i).mass
        vx := (cur i).vx + ((old j).x - (old i).x)
          / magnitude ((old j).x - (old i).x) ((old j).y - (old i).y)
              ((old j).z - (old i).z)
          * newton_law_of_universal_gravitation G (old i).mass (old j).mass
              (distance (old i).x (old i).y (old i).z
                (old j).x (old j).y (old j).z) / (cur i).mass
        vy := (cur i).vy + ((old j).y - (old i).y)
          / magnitude ((old j).x - (old i).x) ((old j).y - (old i).y)
              ((old j).z - (old i).z)
          * newton_law_of_universal_gravitation G (old i).mass (old j).mass
              (distance (old i).x (old i).y (old i).z
                (old j).x (old j).y (old j).z) / (cur i).mass
        vz := (cur i).vz + ((old j).z - (old i).z)
          / magnitude ((old j).x - (old i).x) ((old j).y - (old i).y)
              ((old j).z - (old i).z)
          * newton_law_of_universal_gravitation G (old i).mass (old j).mass
              (distance (old i).x (old i).y (old i).z
                (old j).x (old j).y (old j).z) / (cur i).mass } := by
  simp only [pairUpdate, Function.update_noteq hij, Function.update_same]

/-- Helper: the body at index j after one pair update, written without lets. -/
theorem pairUpdate_apply_snd {n : ℕ} (G : ℝ) (old cur : Fin n → Body ℝ)
    (i j : Fin n) (hij : i ≠ j) :
    pairUpdate G old cur i j j =
      { x := (cur j).x
        y := (cur j).y
        z := (cur j).z
        mass := (cur j).mass
        vx := (cur j).vx + -(((old j).x - (old i).x)
          / magnitude ((old j).x - (old i).x) ((old j).y - (old i).y)
              ((old j).z - (old i).z)
          * newton_law_of_universal_gravitation G (old i).mass (old j).mass
              (distance (old i).x (old i).y (old i).z
                (old j).x (old j).y (old j).z)) / (cur j).mass
        vy := (cur j).vy + -(((old j).y - (old i).y)
          / magnitude ((old j).x - (old i).x) ((old j).y - (old i).y)
              ((old j).z - (old i).z)
          * newton_law_of_universal_gravitation G (old i).mass (old j).mass
              (distance (old i).x (old i).y (old i).z
                (old j).x (old j).y (old j).z)) / (cur j).mass
        vz := (cur j).vz + -(((old j).z - (old i).z)
          / magnitude ((old j).x - (old i).x) ((old j).y - (old i).y)
              ((old j).z - (old i).z)
          * newton_law_of_universal_gravitation G (old i).mass (old j).mass
              (distance (old i).x (old i).y (old i).z
                (old j).x (old j).y (old j).z)) / (cur j).mass } := by
  simp only [pairUpdate, Function.update_noteq (Ne.symm hij), Function.update_same]

/-- Helper: a pair update leaves every body other than i and j unchanged. -/
theorem pairUpdate_apply_other {n : ℕ} (G : ℝ) (old cur : Fin n → Body ℝ)
    (i j k : Fin n) (hki : k ≠ i) (hkj : k ≠ j) :
    pairUpdate G old cur i j k = cur k := by
  simp only [pairUpdate, Function.update_noteq hkj, Function.update_noteq hki]

/-- Helper: the direction-vector magnitude equals the pair distance. -/
theorem magnitude_eq_distance (x1 y1 z1 x2 y2 z2 : ℝ) :
    magnitude (x2 - x1) (y2 - y1) (z2 - z1) = distance x1 y1 z1 x2 y2 z2 := by
  unfold distance magnitude
  congr 1
  ring

/-- C5: for a pair at reference distance d > 0 the integrator's scalar force
magnitude is `G * m_i * m_j / d` (linear in d), the velocity increment of
body i is the unit vector from i toward j scaled by that magnitude and
divided by the mass of i, and body j receives the exact negation (divided by
the mass of j). -/
theorem pairUpdate_force_formula {n : ℕ} (G : ℝ) (old cur : Fin n → Body ℝ)
    (i j : Fin n) (hij : i ≠ j) (d : ℝ)
    (hd_def : d = distance (old i).x (old i).y (old i).z
      (old j).x (old j).y (old j).z) (hd : 0 < d) :
    newton_law_of_universal_gravitation G (old i).mass (old j).mass d
      = G * (old i).mass * (old j).mass / d ∧
    (pairUpdate G old cur i j i).vx = (cur i).vx + ((old j).x - (old i).x) / d
      * (G * (old i).mass * (old j).mass / d) / (cur i).mass ∧
    (pairUpdate G old cur i j i).vy = (cur i).vy + ((old j).y - (old i).y) / d
      * (G * (old i).mass * (old j).mass / d) / (cur i).mass ∧
    (pairUpdate G old cur i j i).vz = (cur i).vz + ((old j).z - (old i).z) / d
      * (G * (old i).mass * (old j).mass / d) / (cur i).mass ∧
    (pairUpdate G old cur i j j).vx = (cur j).vx
      + -(((old j).x - (old i).x) / d
        * (G * (old i).mass * (old j).mass / d)) / (cur j).mass ∧
    (pairUpdate G old cur i j j).vy = (cur j).vy
      + -(((old j).y - (old i).y) / d
        * (G * (old i).mass * (old j).mass / d)) / (cur j).mass ∧
    (pairUpdate G old cur i j j).vz = (cur j).vz
      + -(((old j).z - (old i).z) / d
        * (G * (old i).mass * (old j).mass / d)) / (cur j).mass := by
  have hmag : magnitude ((old j).x - (old i).x) ((old j).y - (old i).y)
      ((old j).z - (old i).z) = d := by
    rw [magnitude_eq_distance, ← hd_def]
  refine ⟨by unfold newton_law_of_universal_gravitation; ring, ?_, ?_, ?_, ?_, ?_, ?_⟩
  all_goals
    first
      | (rw [pairUpdate_apply_fst G old cur i j hij]
         simp only [hmag, ← hd_def]
         unfold newton_law_of_universal_gravitation
         ring)
      | (rw [pairUpdate_apply_snd G old cur i j hij]
         simp only [hmag, ← hd_def]
         unfold newton_law_of_universal_gravitation
         ring)

/-- Witness for C5 at two unit-mass bodies at distance 1 on the x-axis. -/
theorem pairUpdate_force_formula_witness :
    (0 : ℝ) < 1 ∧
    (newton_law_of_universal_gravitation 1 (twoBodiesX 0).mass (twoBodiesX 1).mass 1
      = 1 * (twoBodiesX 0).mass * (twoBodiesX 1).mass / 1 ∧
    (pairUpdate 1 twoBodiesX twoBodiesX 0 1 0).vx = (twoBodiesX 0).vx
      + ((twoBodiesX 1).x - (twoBodiesX 0).x) / 1
        * (1 * (twoBodiesX 0).mass * (twoBodiesX 1).mass / 1) / (twoBodiesX 0).mass ∧
    (pairUpdate 1 twoBodiesX twoBodiesX 0 1 0).vy = (twoBodiesX 0).vy
      + ((twoBodiesX 1).y - (twoBodiesX 0).y) / 1
        * (1 * (twoBodiesX 0).mass * (twoBodiesX 1).mass / 1) / (twoBodiesX 0).mass ∧
    (pairUpdate 1 twoBodiesX twoBodiesX 0 1 0).vz = (twoBodiesX 0).vz
      + ((twoBodiesX 1).z - (twoBodiesX 0).z) / 1
        * (1 * (twoBodiesX 0).mass * (twoBodiesX 1).mass / 1) / (twoBodiesX 0).mass ∧
    (pairUpdate 1 twoBodiesX twoBodiesX 0 1 1).vx = (twoBodiesX 1).vx
      + -(((twoBodiesX 1).x - (twoBodiesX 0).x) / 1
        * (1 * (twoBodiesX 0).mass * (twoBodiesX 1).mass / 1)) / (twoBodiesX 1).mass ∧
    (pairUpdate 1 twoBodiesX twoBodiesX 0 1 1).vy = (twoBodiesX 1).vy
      + -(((twoBodiesX 1).y - (twoBodiesX 0).y) / 1
        * (1 * (twoBodiesX 0).mass * (twoBodiesX 1).mass / 1)) / (twoBodiesX 1).mass ∧
    (pairUpdate 1 twoBodiesX twoBodiesX 0 1 1).vz = (twoBodiesX 1).vz
      + -(((twoBodiesX 1).z - (twoBodiesX 0).z) / 1
        * (1 * (twoBodiesX 0).mass * (twoBodiesX 1).mass / 1)) / (twoBodiesX 1).mass) :=
  ⟨by norm_num,
   pairUpdate_force_formula 1 twoBodiesX twoBodiesX 0 1 (by decide) 1
     (by simp [twoBodiesX, distance, magnitude])
     (by norm_num)⟩

/-- C6: with exactly two unit-mass bodies at distance 10 on the x-axis, G = 1
and zero initial velocities, one velocity-update pass changes the two
velocities by equal-magnitude opposite vectors along the x-axis, each of
magnitude exactly 0.1. -/
theorem two_body_pass_symmetry :
    (forcePass 1 twoBodiesTen 0).vx - (twoBodiesTen 0).vx = 1 / 10 ∧
    (forcePass 1 twoBodiesTen 1).vx - (twoBodiesTen 1).vx = -(1 / 10) ∧
    (forcePass 1 twoBodiesTen 0).vy - (twoBodiesTen 0).vy = 0 ∧
    (forcePass 1 twoBodiesTen 0).vz - (twoBodiesTen 0).vz = 0 ∧
    (forcePass 1 twoBodiesTen 1).vy - (twoBodiesTen 1).vy = 0 ∧
    (forcePass 1 twoBodiesTen 1).vz - (twoBodiesTen 1).vz = 0 := by
  have hap : allPairs 2 = [(0, 1)] := by decide
  have hforce : forcePass 1 twoBodiesTen
      = pairUpdate 1 twoBodiesTen twoBodiesTen 0 1 := by
    unfold forcePass
    rw [hap]
    simp
  have hs : Real.sqrt 100 = 10 := by
    rw [show (100 : ℝ) = 10 ^ 2 by norm_num]
    exact Real.sqrt_sq (by norm_num)
  rw [hforce,
    pairUpdate_apply_fst 1 twoBodiesTen twoBodiesTen 0 1 (by decide),
    pairUpdate_apply_snd 1 twoBodiesTen twoBodiesTen 0 1 (by decide)]
  simp only [twoBodiesTen, distance, magnitude,
    newton_law_of_universal_gravitation]
  norm_num [hs]

/-- Helper: sum of a per-body quantity over a collection with one body
replaced. -/
theorem sum_body_update {n : ℕ} (g : Fin n → Body ℝ) (i : Fin n) (b' : Body ℝ)
    (f : Body ℝ → ℝ) :
    ∑ k, f (Function.update g i b' k) = (∑ k, f (g k)) + f b' - f (g i) := by
  have h1 : (fun k => f (Function.update g i b' k))
      = Function.update (fun k => f (g k)) i (f b') := by
    funext k
    by_cases hk : k = i
    · subst hk; simp
    · simp [Function.update_noteq hk]
  have h2 : ∑ k in Finset.univ \ {i}, f (g k) = (∑ k, f (g k)) - f (g i) := by
    have h3 := Finset.sum_eq_sum_diff_singleton_add (Finset.mem_univ i)
      (fun k => f (g k))
    linarith
  calc ∑ k, f (Function.update g i b' k)
      = ∑ k, Function.update (fun k => f (g k)) i (f b') k := by rw [h1]
    _ = f b' + ∑ k in Finset.univ \ {i}, f (g k) :=
        Finset.sum_update_of_mem (Finset.mem_univ i) _ _
    _ = (∑ k, f (g k)) + f b' - f (g i) := by rw [h2]; ring

/-- Helper: a pair update never changes any mass. -/
theorem pairUpdate_mass {n : ℕ} (G : ℝ) (old cur : Fin n → Body ℝ)
    (i j k : Fin n) :
    ((pairUpdate G old cur i j) k).mass = (cur k).mass := by
  by_cases hkj : k = j
  · subst hkj
    simp only [pairUpdate, Function.update_same]
    by_cases hji : k = i
    · subst hji; simp
    · simp [Function.update_noteq hji]
  · simp only [pairUpdate, Function.update_noteq hkj]
    by_cases hki : k = i
    · subst hki; simp
    · simp [Function.update_noteq hki]

/-- Helper: a pair update is the double pointwise update at i and j. -/
theorem pairUpdate_as_updates {n : ℕ} (G : ℝ) (old cur : Fin n → Body ℝ)
    (i j : Fin n) (hij : i ≠ j) :
    pairUpdate G old cur i j
      = Function.update (Function.update cur i (pairUpdate G old cur i j i)) j
          (pairUpdate G old cur i j j) := by
  funext k
  by_cases hkj : k = j
  · subst hkj; simp
  · by_cases hki : k = i
    · subst hki
      simp [Function.update_noteq hkj]
    · simp [Function.update_noteq hkj, Function.update_noteq hki,
        pairUpdate_apply_other G old cur i j k hki hkj]

/-- Helper: momentum (x) of a collection with one body replaced. -/
theorem totalMomentumX_update {n : ℕ} (g : Fin n → Body ℝ) (i : Fin n)
    (b' : Body ℝ) :
    totalMomentumX (Function.update g i b')
      = totalMomentumX g + b'.mass * b'.vx - (g i).mass * (g i).vx :=
  sum_body_update g i b' (fun b => b.mass * b.vx)

/-- Helper: momentum (y) of a collection with one body replaced. -/
theorem totalMomentumY_update {n : ℕ} (g : Fin n → Body ℝ) (i : Fin n)
    (b' : Body ℝ) :
    totalMomentumY (Function.update g i b')
      = totalMomentumY g + b'.mass * b'.vy - (g i).mass * (g i).vy :=
  sum_body_update g i b' (fun b => b.mass * b.vy)

/-- Helper: momentum (z) of a collection with one body replaced. -/
theorem totalMomentumZ_update {n : ℕ} (g : Fin n → Body ℝ) (i : Fin n)
    (b' : Body ℝ) :
    totalMomentumZ (Function.update g i b')
      = totalMomentumZ g + b'.mass * b'.vz - (g i).mass * (g i).vz :=
  sum_body_update g i b' (fun b => b.mass * b.vz)

/-- Helper: one pair update conserves each component of total momentum. -/
theorem pairUpdate_momentum {n : ℕ} (G : ℝ) (old cur : Fin n → Body ℝ)
    (i j : Fin n) (hij : i ≠ j)
    (hmi : (cur i).mass ≠ 0) (hmj : (cur j).mass ≠ 0) :
    totalMomentumX (pairUpdate G old cur i j) = totalMomentumX cur ∧
    totalMomentumY (pairUpdate G old cur i j) = totalMomentumY cur ∧
    totalMomentumZ (pairUpdate G old cur i j) = totalMomentumZ cur := by
  refine ⟨?_, ?_, ?_⟩
  all_goals
    rw [pairUpdate_as_updates G old cur i j hij]
    rw [pairUpdate_apply_fst G old cur i j hij,
      pairUpdate_apply_snd G old cur i j hij]
    simp only [totalMomentumX_update, totalMomentumY_update,
      totalMomentumZ_update, Function.update_noteq (Ne.symm hij)]
    try dsimp only
    rw [mul_add, mul_add, mul_div_cancel₀ _ hmi, mul_div_cancel₀ _ hmj]
    ring

/-- Helper: folding pair updates over any list of index pairs with distinct
components preserves every mass and every momentum component. -/
theorem foldl_pairUpdate_invariant {n : ℕ} (G : ℝ) (b : Fin n → Body ℝ)
    (hb : ∀ i, (b i).mass ≠ 0) :
    ∀ (l : List (Fin n × Fin n)), (∀ p ∈ l, p.1 ≠ p.2) →
    ∀ cur : Fin n → Body ℝ, (∀ k, (cur k).mass = (b k).mass) →
    (∀ k, ((l.foldl (fun c p => pairUpdate G b c p.1 p.2) cur) k).mass
      = (b k).mass) ∧
    totalMomentumX (l.foldl (fun c p => pairUpdate G b c p.1 p.2) cur)
      = totalMomentumX cur ∧
    totalMomentumY (l.foldl (fun c p => pairUpdate G b c p.1 p.2) cur)
      = totalMomentumY cur ∧
    totalMomentumZ (l.foldl (fun c p => pairUpdate G b c p.1 p.2) cur)
      = totalMomentumZ cur := by
  intro l
  induction l with
  | nil =>
    intro _ cur hm
    exact ⟨hm, rfl, rfl, rfl⟩
  | cons p ps ih =>
    intro hne cur hm
    simp only [List.foldl_cons]
    have hij : p.1 ≠ p.2 := hne p (List.mem_cons_self p ps)
    have hmi : (cur p.1).mass ≠ 0 := by rw [hm p.1]; exact hb p.1
    have hmj : (cur p.2).mass ≠ 0 := by rw [hm p.2]; exact hb p.2
    have hmom := pairUpdate_momentum G b cur p.1 p.2 hij hmi hmj
    have hm' : ∀ k, ((pairUpdate G b cur p.1 p.2) k).mass = (b k).mass :=
      fun k => (pairUpdate_mass G b cur p.1 p.2 k).trans (hm k)
    obtain ⟨ih1, ih2, ih3, ih4⟩ :=
      ih (fun q hq => hne q (List.mem_cons_of_mem p hq))
        (pairUpdate G b cur p.1 p.2) hm'
    exact ⟨ih1, ih2.trans hmom.1, ih3.trans hmom.2.1, ih4.trans hmom.2.2⟩

/-- Helper: every pair produced by the double loop has strictly increasing
components. -/
theorem allPairs_fst_lt {n : ℕ} : ∀ p ∈ allPairs n, p.1 < p.2 := by
  intro p hp
  simp only [allPairs, List.mem_flatMap, List.mem_map, List.mem_filter,
    decide_eq_true_eq] at hp
  obtain ⟨i, _, j, hj, rfl⟩ := hp
  exact hj.2

/-- C1: one full pairwise force-accumulation pass (every unordered pair once,
positions read from the pre-pass snapshot) leaves every component of the
total momentum unchanged, for positive masses and pairwise-distinct
positions, in exact real arithmetic. -/
theorem forcePass_conserves_momentum {n : ℕ} (G : ℝ) (b : Fin n → Body ℝ)
    (hmass : ∀ i, 0 < (b i).mass)
    (hdistinct : ∀ i j : Fin n, i ≠ j →
      ((b i).x, (b i).y, (b i).z) ≠ ((b j).x, (b j).y, (b j).z)) :
    totalMomentumX (forcePass G b) = totalMomentumX b ∧
    totalMomentumY (forcePass G b) = totalMomentumY b ∧
    totalMomentumZ (forcePass G b) = totalMomentumZ b := by
  have h := foldl_pairUpdate_invariant G b (fun i => (hmass i).ne')
    (allPairs n) (fun p hp => ne_of_lt (allPairs_fst_lt p hp)) b (fun k => rfl)
  exact ⟨h.2.1, h.2.2.1, h.2.2.2⟩

/-- Witness for C1 at the concrete two-body collection `twoBodiesX`. -/
theorem forcePass_conserves_momentum_witness :
    (∀ i : Fin 2, 0 < (twoBodiesX i).mass) ∧
    (∀ i j : Fin 2, i ≠ j →
      ((twoBodiesX i).x, (twoBodiesX i).y, (twoBodiesX i).z)
        ≠ ((twoBodiesX j).x, (twoBodiesX j).y, (twoBodiesX j).z)) ∧
    (totalMomentumX (forcePass 1 twoBodiesX) = totalMomentumX twoBodiesX ∧
     totalMomentumY (forcePass 1 twoBodiesX) = totalMomentumY twoBodiesX ∧
     totalMomentumZ (forcePass 1 twoBodiesX) = totalMomentumZ twoBodiesX) := by
  have hm : ∀ i : Fin 2, 0 < (twoBodiesX i).mass := by
    intro i; fin_cases i <;> norm_num [twoBodiesX]
  have hd : ∀ i j : Fin 2, i ≠ j →
      ((twoBodiesX i).x, (twoBodiesX i).y, (twoBodiesX i).z)
        ≠ ((twoBodiesX j).x, (twoBodiesX j).y, (twoBodiesX j).z) := by
    intro i j hij
    fin_cases i <;> fin_cases j <;> simp_all [twoBodiesX, Prod.ext_iff]
  exact ⟨hm, hd, forcePass_conserves_momentum 1 twoBodiesX hm hd⟩

/-- Helper: the high accumulator never decreases along a fold. -/
theorem foldl_high_ge (f : Body ℚ → ℚ) :
    ∀ (l : List (Body ℚ)) (acc : ℚ),
      acc ≤ l.foldl (fun a b => if a < f b then f b else a) acc := by
  intro l
  induction l with
  | nil => intro acc; simp
  | cons c cs ih =>
    intro acc
    simp only [List.foldl_cons]
    refine le_trans ?_ (ih _)
    split
    · exact le_of_lt (by assumption)
    · exact le_refl acc

/-- Helper: every member's value is below the high accumulator's result. -/
theorem mem_le_foldl_high (f : Body ℚ → ℚ) :
    ∀ (l : List (Body ℚ)) (acc : ℚ) (b : Body ℚ), b ∈ l →
      f b ≤ l.foldl (fun a b => if a < f b then f b else a) acc := by
  intro l
  induction l with
  | nil => intro acc b hb; simp at hb
  | cons c cs ih =>
    intro acc b hb
    simp only [List.foldl_cons]
    rcases List.mem_cons.1 hb with rfl | hb'
    · refine le_trans ?_ (foldl_high_ge f cs _)
      split
      · exact le_refl (f b)
      · exact le_of_not_lt (by assumption)
    · exact ih _ b hb'

/-- Helper: the low accumulator never increases along a fold. -/
theorem foldl_low_le (f : Body ℚ → ℚ) :
    ∀ (l : List (Body ℚ)) (acc : ℚ),
      l.foldl (fun a b => if f b < a then f b else a) acc ≤ acc := by
  intro l
  induction l with
  | nil => intro acc; simp
  | cons c cs ih =>
    intro acc
    simp only [List.foldl_cons]
    refine le_trans (ih _) ?_
    split
    · exact le_of_lt (by assumption)
    · exact le_refl acc

/-- Helper: the low accumulator's result is below every member's value. -/
theorem foldl_low_le_mem (f : Body ℚ → ℚ) :
    ∀ (l : List (Body ℚ)) (acc : ℚ) (b : Body ℚ), b ∈ l →
      l.foldl (fun a b => if f b < a then f b else a) acc ≤ f b := by
  intro l
  induction l with
  | nil => intro acc b hb; simp at hb
  | cons c cs ih =>
    intro acc b hb
    simp only [List.foldl_cons]
    rcases List.mem_cons.1 hb with rfl | hb'
    · refine le_trans (foldl_low_le f cs _) ?_
      split
      · exact le_refl (f b)
      · exact le_of_not_lt (by assumption)
    · exact ih _ b hb'

/-- Helper: rounding half away from zero keeps a value of [0, m] in [0, m]. -/
theorem roundAway_bounds (q : ℚ) (m : ℤ) (h0 : 0 ≤ q) (hm : q ≤ (m : ℚ)) :
    0 ≤ roundAway q ∧ roundAway q ≤ m := by
  unfold roundAway
  rw [if_neg (not_lt.2 h0)]
  constructor
  · exact Int.le_floor.2 (by push_cast; linarith)
  · have h4 : ⌊q + 1 / 2⌋ < m + 1 := Int.floor_lt.2 (by push_cast; linarith)
    omega

/-- Helper: the inverse-lerp ratio scaled by a nonnegative factor stays in
[0, factor]. -/
theorem ratio_bounds (lo hi v c : ℚ) (hlo : lo ≤ v) (hhi : v ≤ hi)
    (hex : 0 < hi - lo) (hc : 0 ≤ c) :
    0 ≤ (v - lo) / (hi - lo) * c ∧ (v - lo) / (hi - lo) * c ≤ c := by
  have ht0 : 0 ≤ (v - lo) / (hi - lo) := div_nonneg (by linarith) hex.le
  have ht1 : (v - lo) / (hi - lo) ≤ 1 := by
    rw [div_le_one hex]; linarith
  exact ⟨mul_nonneg ht0 hc, by nlinarith⟩

/-- C10: when the computed bounding box has strictly positive extent on every
axis and the grid is at least 1×1, every body's column index lies in
[0, width-1], every row index in [0, height-1], and every depth index in
[0, 15], for bodies with finite (double-representable) coordinates. -/
theorem render_indices_in_bounds (height width : ℕ) (bodies : List (Body ℚ))
    (hh : 1 ≤ height) (hw : 1 ≤ width)
    (hfinite : ∀ b ∈ bodies, |b.x| ≤ dblMax ∧ |b.y| ≤ dblMax ∧ |b.z| ≤ dblMax)
    (hex : 0 < (computeBounds bodies).highest_x - (computeBounds bodies).lowest_x)
    (hey : 0 < (computeBounds bodies).highest_y - (computeBounds bodies).lowest_y)
    (hez : 0 < (computeBounds bodies).highest_z - (computeBounds bodies).lowest_z)
    (b : Body ℚ) (hb : b ∈ bodies) :
    (0 ≤ colIndex (computeBounds bodies) width b ∧
     colIndex (computeBounds bodies) width b ≤ (width : ℤ) - 1) ∧
    (0 ≤ rowIndex (computeBounds bodies) height b ∧
     rowIndex (computeBounds bodies) height b ≤ (height : ℤ) - 1) ∧
    (0 ≤ zIndex (computeBounds bodies) b ∧
     zIndex (computeBounds bodies) b ≤ 15) := by
  have hwQ : (1 : ℚ) ≤ (width : ℚ) := by exact_mod_cast hw
  have hhQ : (1 : ℚ) ≤ (height : ℚ) := by exact_mod_cast hh
  refine ⟨?_, ?_, ?_⟩
  · have hhi : b.x ≤ (computeBounds bodies).highest_x :=
      mem_le_foldl_high (fun b => b.x) bodies dblMin b hb
    have hlo : (computeBounds bodies).lowest_x ≤ b.x :=
      foldl_low_le_mem (fun b => b.x) bodies dblMax b hb
    obtain ⟨h0, h1⟩ := ratio_bounds _ _ _ ((width : ℚ) - 1) hlo hhi hex
      (by linarith)
    exact roundAway_bounds _ ((width : ℤ) - 1) h0 (by push_cast; linarith)
  · have hhi : b.y ≤ (computeBounds bodies).highest_y :=
      mem_le_foldl_high (fun b => b.y) bodies dblMin b hb
    have hlo : (computeBounds bodies).lowest_y ≤ b.y :=
      foldl_low_le_mem (fun b => b.y) bodies dblMax b hb
    obtain ⟨h0, h1⟩ := ratio_bounds _ _ _ ((height : ℚ) - 1) hlo hhi hey
      (by linarith)
    exact roundAway_bounds _ ((height : ℤ) - 1) h0 (by push_cast; linarith)
  · have hhi : b.z ≤ (computeBounds bodies).highest_z :=
      mem_le_foldl_high (fun b => b.z) bodies dblMin b hb
    have hlo : (computeBounds bodies).lowest_z ≤ b.z :=
      foldl_low_le_mem (fun b => b.z) bodies dblMax b hb
    have hzs : ((z_size : ℚ) - 1) = 15 := by norm_num [z_size, z_characters]
    obtain ⟨h0, h1⟩ := ratio_bounds _ _ _ ((z_size : ℚ) - 1) hlo hhi hez
      (by rw [hzs]; norm_num)
    refine roundAway_bounds _ 15 h0 ?_
    rw [hzs] at h1
    exact_mod_cast h1

/-- Witness for C10 at the two-body collection `twoQ` on a 2×2 grid. -/
theorem render_indices_in_bounds_witness :
    (0 < (computeBounds twoQ).highest_x - (computeBounds twoQ).lowest_x) ∧
    ((0 ≤ colIndex (computeBounds twoQ) 2 probeBody ∧
      colIndex (computeBounds twoQ) 2 probeBody ≤ (2 : ℤ) - 1) ∧
     (0 ≤ rowIndex (computeBounds twoQ) 2 probeBody ∧
      rowIndex (computeBounds twoQ) 2 probeBody ≤ (2 : ℤ) - 1) ∧
     (0 ≤ zIndex (computeBounds twoQ) probeBody ∧
      zIndex (computeBounds twoQ) probeBody ≤ 15)) := by
  have hbounds : computeBounds twoQ =
      { highest_x := 1, highest_y := 1, highest_z := 1,
        lowest_x := 0, lowest_y := 0, lowest_z := 0 } := by
    norm_num [computeBounds, foldHigh, foldLow, twoQ, dblMin, dblMax]
  have hfin : ∀ b ∈ twoQ, |b.x| ≤ dblMax ∧ |b.y| ≤ dblMax ∧ |b.z| ≤ dblMax := by
    intro b hb
    simp only [twoQ, List.mem_cons, List.not_mem_nil, or_false] at hb
    rcases hb with rfl | rfl <;> norm_num [dblMax]
  have hex : 0 < (computeBounds twoQ).highest_x - (computeBounds twoQ).lowest_x := by
    rw [hbounds]; norm_num
  have hey : 0 < (computeBounds twoQ).highest_y - (computeBounds twoQ).lowest_y := by
    rw [hbounds]; norm_num
  have hez : 0 < (computeBounds twoQ).highest_z - (computeBounds twoQ).lowest_z := by
    rw [hbounds]; norm_num
  exact ⟨hex, render_indices_in_bounds 2 2 twoQ (by norm_num) (by norm_num)
    hfin hex hey hez probeBody (by simp [twoQ, probeBody])⟩

/-- Helper: the row r of a grid after the write `lines[y][x] = ch`. -/
theorem getD_setCell (g : List (List Char)) (y x : ℕ) (ch : Char) (r : ℕ) :
    (setCell g y x ch).getD r []
      = if y = r ∧ y < g.length then (g.getD y []).set x ch
        else g.getD r [] := by
  unfold setCell
  rw [List.getD_eq_getElem?_getD (g.set y ((g.getD y []).set x ch)) r [],
    List.getElem?_set]
  by_cases hyr : y = r
  · subst hyr
    by_cases hy : y < g.length
    · simp [hy]
    · simp only [if_pos rfl, if_neg hy, hy, and_false, if_false]
      rw [List.getD_eq_getElem?_getD g y [],
        List.getElem?_eq_none (le_of_not_lt hy)]
      rfl
  · simp only [if_neg hyr, hyr, false_and, if_false]
    rw [List.getD_eq_getElem?_getD g r []]

/-- Helper: an entry of a row after the write `row[x] = ch`. -/
theorem getD_row_set (row : List Char) (x : ℕ) (ch : Char) (c : ℕ) :
    (row.set x ch).getD c ' '
      = if x = c ∧ x < row.length then ch else row.getD c ' ' := by
  rw [List.getD_eq_getElem?_getD (row.set x ch) c ' ', List.getElem?_set]
  by_cases hxc : x = c
  · subst hxc
    by_cases hx : x < row.length
    · simp [hx]
    · simp only [if_pos rfl, if_neg hx, hx, and_false, if_false]
      rw [List.getD_eq_getElem?_getD row x ' ',
        List.getElem?_eq_none (le_of_not_lt hx)]
      rfl
  · simp only [if_neg hxc, hxc, false_and, if_false]
    rw [List.getD_eq_getElem?_getD row c ' ']

/-- Helper: an in-bounds grid write is read back. -/
theorem cellAt_setCell_self (g : List (List Char)) (r c : ℕ) (ch : Char)
    (hr : r < g.length) (hc : c < (g.getD r []).length) :
    cellAt (setCell g r c ch) r c = ch := by
  unfold cellAt
  rw [getD_setCell, if_pos ⟨rfl, hr⟩, getD_row_set, if_pos ⟨rfl, hc⟩]

/-- Helper: a write to any other cell leaves a cell unchanged. -/
theorem cellAt_setCell_other (g : List (List Char)) (y x r c : ℕ) (ch : Char)
    (hne : ¬(y = r ∧ x = c)) :
    cellAt (setCell g y x ch) r c = cellAt g r c := by
  unfold cellAt
  rw [getD_setCell]
  by_cases hyr : y = r
  · subst hyr
    have hxc : x ≠ c := fun hx => hne ⟨rfl, hx⟩
    by_cases hy : y < g.length
    · rw [if_pos ⟨rfl, hy⟩, getD_row_set, if_neg (fun hp => hxc hp.1)]
    · rw [if_neg (fun hp => hy hp.2)]
  · rw [if_neg (fun hp => hyr hp.1)]

/-- Helper: plotting bodies never changes the grid's dimensions. -/
theorem foldl_plot_dims (bd : Bounds) (h w : ℕ) :
    ∀ (bs : List (Body ℚ)) (g : List (List Char)),
      (bs.foldl (plotBody bd h w) g).length = g.length ∧
      ∀ r : ℕ, ((bs.foldl (plotBody bd h w) g).getD r []).length
        = (g.getD r []).length := by
  intro bs
  induction bs with
  | nil => intro g; exact ⟨rfl, fun _ => rfl⟩
  | cons b bs ih =>
    intro g
    simp only [List.foldl_cons]
    obtain ⟨h1, h2⟩ := ih (plotBody bd h w g b)
    have p1 : (plotBody bd h w g b).length = g.length := by
      simp [plotBody, setCell]
    have p2 : ∀ r : ℕ, ((plotBody bd h w g b).getD r []).length
        = (g.getD r []).length := by
      intro r
      unfold plotBody
      rw [getD_setCell]
      by_cases hp : (rowIndex bd h b).toNat = r ∧ (rowIndex bd h b).toNat < g.length
      · rw [if_pos hp, List.length_set, hp.1]
      · rw [if_neg hp]
    exact ⟨h1.trans p1, fun r => (h2 r).trans (p2 r)⟩

/-- Helper: in the plotting fold, the cell written by body j is read back
when no later body writes to the same cell. -/
theorem foldl_plot_last (bd : Bounds) (h w : ℕ) :
    ∀ (bs : List (Body ℚ)) (g : List (List Char)) (r c j : ℕ)
      (hj : j < bs.length)
      (hr : r < g.length) (hc : c < (g.getD r []).length)
      (hrow : (rowIndex bd h bs[j]).toNat = r)
      (hcol : (colIndex bd w bs[j]).toNat = c)
      (hlast : ∀ (k : ℕ) (hk : k < bs.length), j < k →
        ¬((rowIndex bd h bs[k]).toNat = r ∧ (colIndex bd w bs[k]).toNat = c)),
      cellAt (bs.foldl (plotBody bd h w) g) r c = depthChar bd bs[j] := by
  intro bs
  induction bs using List.reverseRecOn with
  | nil => intro g r c j hj; simp at hj
  | append_singleton bs b ih =>
    intro g r c j hj hr hc hrow hcol hlast
    rw [List.foldl_concat]
    have heq : plotBody bd h w (List.foldl (plotBody bd h w) g bs) b
        = setCell (List.foldl (plotBody bd h w) g bs)
            (rowIndex bd h b).toNat (colIndex bd w b).toNat (depthChar bd b) := rfl
    by_cases hjb : j = bs.length
    · have hb : (bs ++ [b])[j] = b := List.getElem_concat_length bs b j hjb _
      rw [hb] at hrow hcol ⊢
      rw [heq, hrow, hcol]
      apply cellAt_setCell_self
      · rw [(foldl_plot_dims bd h w bs g).1]; exact hr
      · rw [(foldl_plot_dims bd h w bs g).2 r]; exact hc
    · have hjlt : j < bs.length := by
        simp only [List.length_append, List.length_singleton] at hj
        omega
      have hgb : (bs ++ [b])[j] = bs[j] := List.getElem_append_left hjlt
      rw [hgb] at hrow hcol ⊢
      have hkb : bs.length < (bs ++ [b]).length := by simp
      have hbnot : ¬((rowIndex bd h b).toNat = r ∧ (colIndex bd w b).toNat = c) := by
        have hl := hlast bs.length hkb (by omega)
        rwa [List.getElem_concat_length bs b bs.length rfl hkb] at hl
      rw [heq, cellAt_setCell_other _ _ _ _ _ _ hbnot]
      refine ih g r c j hjlt hr hc hrow hcol ?_
      intro k hk hjk
      have hk' : k < (bs ++ [b]).length := by
        simp only [List.length_append, List.length_singleton]
        omega
      have hl := hlast k hk' hjk
      rwa [List.getElem_append_left hk] at hl

/-- C7: when two or more bodies map to the same in-bounds grid cell, the
character present in that cell of the rendered grid is the depth character of
the body with the greatest collection index among those mapping there (last
write wins, no blending). -/
theorem grid_last_write_wins (height width : ℕ) (bodies : List (Body ℚ))
    (dflt : Body ℚ) (r c j : ℕ) (hj : j < bodies.length)
    (hr : r < height) (hc : c < width)
    (hrow : (rowIndex (computeBounds bodies) height (bodies.getD j dflt)).toNat = r)
    (hcol : (colIndex (computeBounds bodies) width (bodies.getD j dflt)).toNat = c)
    (hlast : ∀ (k : ℕ), k < bodies.length → j < k →
      ¬((rowIndex (computeBounds bodies) height (bodies.getD k dflt)).toNat = r ∧
        (colIndex (computeBounds bodies) width (bodies.getD k dflt)).toNat = c)) :
    cellAt (renderGrid height width bodies) r c
      = depthChar (computeBounds bodies) (bodies.getD j dflt) := by
  have hgetj : bodies.getD j dflt = bodies[j] := List.getD_eq_getElem bodies dflt hj
  rw [hgetj] at hrow hcol ⊢
  unfold renderGrid
  refine foldl_plot_last (computeBounds bodies) height width bodies
    (initialGrid height width) r c j hj ?_ ?_ hrow hcol ?_
  · simpa [initialGrid] using hr
  · rw [show (initialGrid height width).getD r [] = List.replicate width ' ' by
      simp [initialGrid, List.getD_eq_getElem?_getD, List.getElem?_replicate, hr]]
    simpa using hc
  · intro k hk hjk
    have hl := hlast k hk hjk
    rwa [List.getD_eq_getElem bodies dflt hk] at hl

/-- Witness for C7: in `threeQ`, bodies 0 and 2 both map to cell (0, 0) of a
5×5 grid, and the final cell holds the depth character of body 2. -/
theorem grid_last_write_wins_witness :
    2 < threeQ.length ∧
    (rowIndex (computeBounds threeQ) 5 (threeQ.getD 2 probeBody)).toNat = 0 ∧
    (colIndex (computeBounds threeQ) 5 (threeQ.getD 2 probeBody)).toNat = 0 ∧
    cellAt (renderGrid 5 5 threeQ) 0 0
      = depthChar (computeBounds threeQ) (threeQ.getD 2 probeBody) := by
  have hrow : (rowIndex (computeBounds threeQ) 5 (threeQ.getD 2 probeBody)).toNat
      = 0 := by
    norm_num [threeQ, probeBody, rowIndex, roundAway, computeBounds,
      foldHigh, foldLow, dblMin, dblMax]
  have hcol : (colIndex (computeBounds threeQ) 5 (threeQ.getD 2 probeBody)).toNat
      = 0 := by
    norm_num [threeQ, probeBody, colIndex, roundAway, computeBounds,
      foldHigh, foldLow, dblMin, dblMax]
  have hlast : ∀ (k : ℕ), k < threeQ.length → 2 < k →
      ¬((rowIndex (computeBounds threeQ) 5 (threeQ.getD k probeBody)).toNat = 0 ∧
        (colIndex (computeBounds threeQ) 5 (threeQ.getD k probeBody)).toNat = 0) := by
    intro k hk h2k
    have hlen : threeQ.length = 3 := by norm_num [threeQ]
    rw [hlen] at hk
    omega
  exact ⟨by norm_num [threeQ], hrow, hcol,
    grid_last_write_wins 5 5 threeQ probeBody 0 0 2 (by norm_num [threeQ])
      (by norm_num) (by norm_num) hrow hcol hlast⟩

end NBodySim
